import Mathlib

/- Shallow embedding of the ClipGenius AI client (React + TypeScript, Gemini
API): the data model, the JSON response decoder, the view state machine, the
chat conversation state, YouTube id extraction, MM:SS seek conversion and the
player seek dispatcher. Every definition is translated from the repository's
source files (src/types.ts, src/services/geminiService.ts, src/App.tsx,
src/components/ChatBot.tsx, src/components/VideoPlayer.tsx); the theorems
settle the specification's claims about them. -/

/- Data model, from src/types.ts. -/

/-- Clip suggestion returned by the model (src/types.ts, SuggestedClip).
viralScore is a JSON number in the source; it is kept here as the number's
JSON lexeme, which determines the numeric value exactly. -/
structure SuggestedClip where
  title : String
  startTime : String
  endTime : String
  description : String
  viralScore : String
  hashtags : List String
deriving DecidableEq, Repr

/-- Analysis result for one video (src/types.ts, VideoAnalysis). -/
structure VideoAnalysis where
  videoTitle : String
  summary : String
  category : String
  suggestedClips : List SuggestedClip
deriving DecidableEq, Repr

/-- Top-level UI mode (src/types.ts, AppState). -/
inductive AppState where
  | IDLE
  | ANALYZING
  | READY
  | ERROR
deriving DecidableEq, Repr

/-- Stand-in for a browser File object: only its identity matters to the
state machine, none of its contents. -/
structure FileHandle where
  name : String
deriving DecidableEq, Repr

/-- Video input (src/types.ts, VideoSource): an uploaded file or a YouTube
URL with its extracted 11-character id. -/
inductive VideoSource where
  | file (f : FileHandle)
  | youtube (url : String) (id : String)
deriving DecidableEq, Repr

/-- The App component's state variables (src/App.tsx): videoSource, state,
analysis, errorMsg. -/
structure AppSt where
  videoSource : Option VideoSource
  appState : AppState
  analysis : Option VideoAnalysis
  errorMsg : String
deriving DecidableEq, Repr

/-- Initial state of the App component: useState(null), AppState.IDLE,
useState(null), useState(''). -/
def initSt : AppSt :=
  { videoSource := none, appState := AppState.IDLE, analysis := none, errorMsg := "" }

/- JSON values and a model of JSON.parse, needed by the response decoder
(src/services/geminiService.ts, safeJsonParse). -/

/-- JSON value. Numbers are kept as their (syntax-checked) lexeme, strings as
their decoded character content, objects as their member list in document
order. -/
inductive Json where
  | null
  | bool (b : Bool)
  | num (lexeme : String)
  | str (s : String)
  | arr (elems : List Json)
  | obj (members : List (String × Json))

/-- JSON insignificant whitespace, which is also what matters to trim here:
space, tab, line feed, carriage return. -/
def isWsChar (c : Char) : Bool :=
  c == ' ' || c == '\t' || c == '\n' || c == '\r'

/-- Drop leading JSON whitespace. -/
def skipWs (cs : List Char) : List Char :=
  cs.dropWhile isWsChar

/-- Value of a hexadecimal digit, for \u escapes, read off the character
code: 48-57 are the digits, 97-102 the lowercase and 65-70 the uppercase
letters. -/
def hexVal (c : Char) : Option Nat :=
  let n := c.toNat
  if 48 ≤ n ∧ n ≤ 57 then some (n - 48)
  else if 97 ≤ n ∧ n ≤ 102 then some (n - 87)
  else if 65 ≤ n ∧ n ≤ 70 then some (n - 55)
  else none

/-- Character named by a single-character JSON escape sequence. -/
def escChar (e : Char) : Option Char :=
  if e == '"' then some '"'
  else if e == '\\' then some '\\'
  else if e == '/' then some '/'
  else if e == 'b' then some (Char.ofNat 8)
  else if e == 'f' then some (Char.ofNat 12)
  else if e == 'n' then some '\n'
  else if e == 'r' then some '\r'
  else if e == 't' then some '\t'
  else none

/-- Body of a JSON string literal after its opening quote: the decoded
characters and the rest of the input after the closing quote. Mirrors the
JSON string grammar: escape sequences as in escChar, \uXXXX escapes (decoded
through Char.ofNat), unescaped control characters rejected. -/
def parseStringBody : List Char → Option (List Char × List Char)
  | [] => none
  | c :: rest =>
    if c == '"' then some ([], rest)
    else if c == '\\' then
      match rest with
      | [] => none
      | e :: r =>
        if e == 'u' then
          match r with
          | h1 :: h2 :: h3 :: h4 :: r2 =>
            match hexVal h1, hexVal h2, hexVal h3, hexVal h4 with
            | some a, some b, some x, some d =>
              match parseStringBody r2 with
              | some (s, r3) => some (Char.ofNat (((a * 16 + b) * 16 + x) * 16 + d) :: s, r3)
              | none => none
            | _, _, _, _ => none
          | _ => none
        else
          match escChar e with
          | some ec =>
            match parseStringBody r with
            | some (s, r2) => some (ec :: s, r2)
            | none => none
          | none => none
    else if c.toNat < 32 then none
    else
      match parseStringBody rest with
      | some (s, r2) => some (c :: s, r2)
      | none => none

/-- Optional fraction part of a JSON number: its lexeme (possibly empty) and
the rest. A dot must be followed by at least one digit. -/
def parseFrac (cs : List Char) : Option (List Char × List Char) :=
  match cs with
  | '.' :: r =>
    let ds := r.takeWhile Char.isDigit
    if ds.isEmpty then none else some ('.' :: ds, r.dropWhile Char.isDigit)
  | _ => some ([], cs)

/-- Optional exponent part of a JSON number: its lexeme (possibly empty) and
the rest. -/
def parseExp (cs : List Char) : Option (List Char × List Char) :=
  match cs with
  | c :: r =>
    if c == 'e' || c == 'E' then
      match r with
      | s :: r2 =>
        if s == '+' || s == '-' then
          let ds := r2.takeWhile Char.isDigit
          if ds.isEmpty then none else some (c :: s :: ds, r2.dropWhile Char.isDigit)
        else
          let ds := r.takeWhile Char.isDigit
          if ds.isEmpty then none else some (c :: ds, r.dropWhile Char.isDigit)
      | [] => none
    else some ([], cs)
  | [] => some ([], [])

/-- JSON number at the head of the input: its full lexeme and the rest.
Follows the JSON grammar: optional minus, an integer part with no leading
zero, optional fraction, optional exponent. -/
def parseNumber (cs : List Char) : Option (List Char × List Char) :=
  let (sign, cs1) : List Char × List Char :=
    match cs with
    | '-' :: r => (['-'], r)
    | _ => ([], cs)
  match cs1 with
  | c :: r =>
    if c == '0' then
      match parseFrac r with
      | some (f, r1) =>
        match parseExp r1 with
        | some (e, r2) => some (sign ++ c :: (f ++ e), r2)
        | none => none
      | none => none
    else if c.isDigit then
      let ds := r.takeWhile Char.isDigit
      let r0 := r.dropWhile Char.isDigit
      match parseFrac r0 with
      | some (f, r1) =>
        match parseExp r1 with
        | some (e, r2) => some (sign ++ c :: (ds ++ f ++ e), r2)
        | none => none
      | none => none
    else none
  | [] => none

/-- Parsing mode of the fueled JSON parser: a single value, the elements of
an array after its opening bracket, or the members of an object after its
opening brace (both with at least one entry; the empty cases are handled by
the value mode). -/
inductive JMode where
  | value
  | arrElems
  | objMembers

/-- Recursive JSON parser, fueled so that it is structurally recursive and
kernel-reducible. Returns the parsed value and the unconsumed input. -/
def parseM : Nat → JMode → List Char → Option (Json × List Char)
  | 0, _, _ => none
  | fuel + 1, JMode.value, cs =>
    match skipWs cs with
    | 'n' :: 'u' :: 'l' :: 'l' :: rest => some (Json.null, rest)
    | 't' :: 'r' :: 'u' :: 'e' :: rest => some (Json.bool true, rest)
    | 'f' :: 'a' :: 'l' :: 's' :: 'e' :: rest => some (Json.bool false, rest)
    | '"' :: rest =>
      (match parseStringBody rest with
       | some (s, r) => some (Json.str (String.mk s), r)
       | none => none)
    | '[' :: rest =>
      (match skipWs rest with
       | ']' :: r => some (Json.arr [], r)
       | _ => parseM fuel JMode.arrElems rest)
    | '{' :: rest =>
      (match skipWs rest with
       | '}' :: r => some (Json.obj [], r)
       | _ => parseM fuel JMode.objMembers rest)
    | other =>
      (match parseNumber other with
       | some (lex, r) => some (Json.num (String.mk lex), r)
       | none => none)
  | fuel + 1, JMode.arrElems, cs =>
    match parseM fuel JMode.value cs with
    | none => none
    | some (j, r) =>
      match skipWs r with
      | ',' :: r2 =>
        (match parseM fuel JMode.arrElems r2 with
         | some (Json.arr js, r3) => some (Json.arr (j :: js), r3)
         | _ => none)
      | ']' :: r2 => some (Json.arr [j], r2)
      | _ => none
  | fuel + 1, JMode.objMembers, cs =>
    match skipWs cs with
    | '"' :: r =>
      (match parseStringBody r with
       | none => none
       | some (key, r2) =>
         match skipWs r2 with
         | ':' :: r3 =>
           (match parseM fuel JMode.value r3 with
            | none => none
            | some (v, r4) =>
              match skipWs r4 with
              | ',' :: r5 =>
                (match parseM fuel JMode.objMembers r5 with
                 | some (Json.obj ms, r6) => some (Json.obj ((String.mk key, v) :: ms), r6)
                 | _ => none)
              | '}' :: r5 => some (Json.obj [(String.mk key, v)], r5)
              | _ => none)
         | _ => none)
    | _ => none

/-- Model of JSON.parse on a character list: one JSON value, possibly
surrounded by whitespace, and nothing else. none models a thrown
SyntaxError. The fuel 2 * length + 4 is enough for any input because every
two parser steps consume at least one character. -/
def parseJsonL (cs : List Char) : Option Json :=
  match parseM (2 * cs.length + 4) JMode.value cs with
  | some (j, rest) => if (skipWs rest).isEmpty then some j else none
  | none => none

/-- Model of JSON.parse on a string. -/
def parseJson (s : String) : Option Json :=
  parseJsonL s.data

/- Fence stripping and trimming, from safeJsonParse
(src/services/geminiService.ts lines 49-57):
text.replace over the fence pattern, then trim, then JSON.parse. -/

/-- The backtick character. -/
def backtick : Char := Char.ofNat 96

/-- Three backticks: a fenced code-block marker. -/
def fence : List Char := [backtick, backtick, backtick]

/-- A json-labelled opening fence without its newline. -/
def fenceJson : List Char := fence ++ ['j', 's', 'o', 'n']

/-- A json-labelled opening fence including its optional newline. -/
def fenceJsonNl : List Char := fenceJson ++ ['\n']

/-- Whether pat occurs at the head of cs. -/
def leadsWith : List Char → List Char → Bool
  | [], _ => true
  | _ :: _, [] => false
  | p :: ps, c :: cs => p == c && leadsWith ps cs

/-- Whether pat occurs anywhere in cs. -/
def containsSeq (pat : List Char) : List Char → Bool
  | [] => leadsWith pat []
  | c :: rest => leadsWith pat (c :: rest) || containsSeq pat rest

/-- One left-to-right pass of the global regex replace in safeJsonParse: at
each position the engine first tries the json-labelled fence with its
optional (greedy) newline, then a bare fence; a match is deleted, any other
character is kept. Fueled for structural recursion; every step consumes at
least one character, so fuel = length suffices. -/
def stripFenceAux : Nat → List Char → List Char
  | 0, cs => cs
  | _ + 1, [] => []
  | f + 1, c :: cs =>
    if leadsWith fenceJsonNl (c :: cs) then stripFenceAux f ((c :: cs).drop 8)
    else if leadsWith fenceJson (c :: cs) then stripFenceAux f ((c :: cs).drop 7)
    else if leadsWith fence (c :: cs) then stripFenceAux f ((c :: cs).drop 3)
    else c :: stripFenceAux f cs

/-- The regex replace of safeJsonParse on a whole input. -/
def stripFence (cs : List Char) : List Char :=
  stripFenceAux cs.length cs

/-- Trim: drop trailing then leading whitespace (same result as the
source's trim, which drops both ends). -/
def trimL (cs : List Char) : List Char :=
  ((cs.reverse.dropWhile isWsChar).reverse).dropWhile isWsChar

/-- The cleaned text safeJsonParse hands to JSON.parse:
text.replace(fence pattern, '').trim(). -/
def cleanText (text : String) : List Char :=
  trimL (stripFence text.data)

/-- Model of safeJsonParse (src/services/geminiService.ts lines 49-57).
First component: the returned parse on success, or the thrown Error's
message on failure. Second component: the console.error diagnostic log
entries emitted (the fixed caption and the original raw text). -/
def safeJsonParseFull (text : String) : Except String Json × List String :=
  match parseJsonL (cleanText text) with
  | some j => (Except.ok j, [])
  | none =>
    (Except.error "Failed to parse AI response.",
     ["JSON Parse Error. Raw text:", text])

/-- The value safeJsonParse returns or throws, without the console log. -/
def safeJsonParse (text : String) : Except String Json :=
  (safeJsonParseFull text).1

/- Reading a VideoAnalysis off the parsed JSON. The TypeScript source casts
the parsed object with `as VideoAnalysis` and performs no checks; these
readers model the fields that cast exposes, succeeding exactly when the
document has the schema's shape. -/

/-- Field access on a JS object built by JSON.parse: with duplicate keys the
later member wins. -/
def getField (members : List (String × Json)) (name : String) : Option Json :=
  match members with
  | [] => none
  | (k, v) :: rest =>
    match getField rest name with
    | some r => some r
    | none => if k = name then some v else none

/-- A JSON string's content. -/
def asStr : Json → Option String
  | Json.str s => some s
  | _ => none

/-- A JSON number's lexeme. -/
def asNumLex : Json → Option String
  | Json.num lex => some lex
  | _ => none

/-- A JSON array of strings. -/
def asStrList : List Json → Option (List String)
  | [] => some []
  | j :: rest =>
    match asStr j, asStrList rest with
    | some s, some ss => some (s :: ss)
    | _, _ => none

/-- The fields of one suggested clip, as the dashboard reads them off the
cast object. -/
def decodeClip (j : Json) : Option SuggestedClip :=
  match j with
  | Json.obj ms =>
    match getField ms "title", getField ms "startTime", getField ms "endTime",
          getField ms "description", getField ms "viralScore", getField ms "hashtags" with
    | some t, some st, some et, some d, some v, some (Json.arr hs) =>
      (match asStr t, asStr st, asStr et, asStr d, asNumLex v, asStrList hs with
       | some t1, some st1, some et1, some d1, some v1, some hs1 =>
         some { title := t1, startTime := st1, endTime := et1,
                description := d1, viralScore := v1, hashtags := hs1 }
       | _, _, _, _, _, _ => none)
    | _, _, _, _, _, _ => none
  | _ => none

/-- All suggested clips in order. -/
def decodeClips : List Json → Option (List SuggestedClip)
  | [] => some []
  | j :: rest =>
    match decodeClip j, decodeClips rest with
    | some c, some cs => some (c :: cs)
    | _, _ => none

/-- The VideoAnalysis the cast object exposes: defined exactly when the
parsed document matches the response schema. -/
def decodeVideoAnalysis (j : Json) : Option VideoAnalysis :=
  match j with
  | Json.obj ms =>
    match getField ms "videoTitle", getField ms "summary", getField ms "category",
          getField ms "suggestedClips" with
    | some vt, some sm, some cat, some (Json.arr cs) =>
      (match asStr vt, asStr sm, asStr cat, decodeClips cs with
       | some vt1, some sm1, some cat1, some cs1 =>
         some { videoTitle := vt1, summary := sm1, category := cat1, suggestedClips := cs1 }
       | _, _, _, _ => none)
    | _, _, _, _ => none
  | _ => none

/-- The analysis the service returns for a given response text: safeJsonParse
then the `as VideoAnalysis` view of the parsed object. -/
def analysisOf (text : String) : Option VideoAnalysis :=
  match safeJsonParse text with
  | Except.ok j => decodeVideoAnalysis j
  | Except.error _ => none

/-- Tail of analyzeVideoContent / analyzeYouTubeVideo
(src/services/geminiService.ts lines 84-87 and 120-123) as a function of the
gateway response's text: an absent or empty text throws
"No response from Gemini", otherwise the text goes through safeJsonParse. -/
def analyzeVideoContentResult (responseText : Option String) : Except String Json :=
  match responseText with
  | none => Except.error "No response from Gemini"
  | some t => if t = "" then Except.error "No response from Gemini" else safeJsonParse t

/- Lemmas about the fence stripping and trimming done by safeJsonParse. -/

/-- Exhausted or not, the stripper leaves an empty input empty. -/
lemma stripFenceAux_nil : ∀ f : Nat, stripFenceAux f [] = []
  | 0 => rfl
  | _ + 1 => rfl

/-- A match of a concatenated pattern is in particular a match of its left
part. -/
lemma leadsWith_append_left : ∀ (p q L : List Char),
    leadsWith (p ++ q) L = true → leadsWith p L = true := by
  intro p
  induction p with
  | nil => intro q L _; rfl
  | cons a ps ih =>
    intro q L h
    cases L with
    | nil => simp [leadsWith] at h
    | cons c cs =>
      simp only [List.cons_append, leadsWith, Bool.and_eq_true] at h ⊢
      exact ⟨h.1, ih q cs h.2⟩

/-- Every pattern matches at the head of itself followed by anything. -/
lemma leadsWith_self_append : ∀ (p r : List Char), leadsWith p (p ++ r) = true := by
  intro p r
  induction p with
  | nil => rfl
  | cons a ps ih => simp [leadsWith, ih]

/-- Splitting a no-occurrence fact at the head position. -/
lemma noFence_head {c : Char} {cs : List Char}
    (h : containsSeq fence (c :: cs) = false) :
    leadsWith fence (c :: cs) = false ∧ containsSeq fence cs = false := by
  simpa [containsSeq, Bool.or_eq_false_iff] using h

/-- Where no bare fence matches, no json-labelled fence with newline
matches. -/
lemma leadsWith_fenceJsonNl_false {L : List Char}
    (h : leadsWith fence L = false) : leadsWith fenceJsonNl L = false := by
  cases hb : leadsWith fenceJsonNl L with
  | false => rfl
  | true =>
    have e : fenceJsonNl = fence ++ ['j', 's', 'o', 'n', '\n'] := rfl
    rw [e] at hb
    rw [leadsWith_append_left _ _ _ hb] at h
    exact absurd h (by simp)

/-- Where no bare fence matches, no json-labelled fence matches. -/
lemma leadsWith_fenceJson_false {L : List Char}
    (h : leadsWith fence L = false) : leadsWith fenceJson L = false := by
  cases hb : leadsWith fenceJson L with
  | false => rfl
  | true =>
    have e : fenceJson = fence ++ ['j', 's', 'o', 'n'] := rfl
    rw [e] at hb
    rw [leadsWith_append_left _ _ _ hb] at h
    exact absurd h (by simp)

/-- The regex replace is the identity on text with no triple backtick. -/
lemma stripFenceAux_id : ∀ (f : Nat) (cs : List Char),
    containsSeq fence cs = false → stripFenceAux f cs = cs := by
  intro f
  induction f with
  | zero => intro cs _; rfl
  | succ f ih =>
    intro cs h
    cases cs with
    | nil => rfl
    | cons c rest =>
      have h0 := noFence_head h
      simp only [stripFenceAux, leadsWith_fenceJsonNl_false h0.1,
        leadsWith_fenceJson_false h0.1, h0.1, Bool.false_eq_true, if_false]
      rw [ih rest h0.2]

/-- The regex replace on a whole input is the identity on text with no
triple backtick. -/
lemma stripFence_id (cs : List Char) (h : containsSeq fence cs = false) :
    stripFence cs = cs :=
  stripFenceAux_id cs.length cs h

/-- A fence match cannot start inside fence-free text followed by a
newline. -/
lemma noFence_append_nl : ∀ (d γ : List Char), containsSeq fence d = false →
    leadsWith fence (d ++ '\n' :: γ) = false := by
  intro d γ h
  match d with
  | [] =>
    show leadsWith fence ('\n' :: γ) = false
    simp [fence, leadsWith, show (backtick == '\n') = false from by decide]
  | [a] =>
    show leadsWith fence (a :: '\n' :: γ) = false
    simp [fence, leadsWith, show (backtick == '\n') = false from by decide]
  | [a, a2] =>
    show leadsWith fence (a :: a2 :: '\n' :: γ) = false
    simp [fence, leadsWith, show (backtick == '\n') = false from by decide]
  | a :: a2 :: a3 :: rest =>
    have h0 : leadsWith fence (a :: a2 :: a3 :: rest) = false := (noFence_head h).1
    show leadsWith fence (a :: a2 :: a3 :: (rest ++ '\n' :: γ)) = false
    simp only [fence, leadsWith] at h0 ⊢
    simpa using h0

/-- Stripping fence-free text followed by a closing fence on its own line
keeps the text and the line break and deletes the closing fence. -/
lemma stripFenceAux_tail : ∀ (d : List Char) (f : Nat),
    containsSeq fence d = false → d.length + 2 ≤ f →
    stripFenceAux f (d ++ '\n' :: fence) = d ++ ['\n'] := by
  intro d
  induction d with
  | nil =>
    intro f _ hf
    obtain ⟨f2, rfl⟩ : ∃ g, f = g + 2 := ⟨f - 2, by omega⟩
    show stripFenceAux (f2 + 1 + 1) ('\n' :: fence) = ['\n']
    have s1 : stripFenceAux (f2 + 1 + 1) ('\n' :: fence)
        = '\n' :: stripFenceAux (f2 + 1) fence := by
      simp [stripFenceAux,
        show leadsWith fenceJsonNl ('\n' :: fence) = false from by decide,
        show leadsWith fenceJson ('\n' :: fence) = false from by decide,
        show leadsWith fence ('\n' :: fence) = false from by decide]
    have s2 : stripFenceAux (f2 + 1) fence = stripFenceAux f2 [] := by
      rw [show (fence : List Char) = backtick :: backtick :: backtick :: [] from rfl]
      simp [stripFenceAux,
        show leadsWith fenceJsonNl (backtick :: backtick :: backtick :: []) = false
          from by decide,
        show leadsWith fenceJson (backtick :: backtick :: backtick :: []) = false
          from by decide,
        show leadsWith fence (backtick :: backtick :: backtick :: []) = true
          from by decide]
    rw [s1, s2, stripFenceAux_nil]
  | cons a d ih =>
    intro f h hlen
    have h0 := noFence_head h
    obtain ⟨f1, rfl⟩ : ∃ g, f = g + 1 := ⟨f - 1, by omega⟩
    have hfa : leadsWith fence (a :: (d ++ '\n' :: fence)) = false := by
      have := noFence_append_nl (a :: d) fence h
      simpa using this
    show stripFenceAux (f1 + 1) (a :: (d ++ '\n' :: fence)) = a :: (d ++ ['\n'])
    simp only [stripFenceAux, leadsWith_fenceJsonNl_false hfa,
      leadsWith_fenceJson_false hfa, hfa, Bool.false_eq_true, if_false]
    rw [ih f1 h0.2 (by simp at hlen; omega)]

/-- One stripper step eats a json-labelled opening fence with its newline. -/
lemma stripFenceAux_fenceJsonNl (f : Nat) (X : List Char) :
    stripFenceAux (f + 1) (fenceJsonNl ++ X) = stripFenceAux f X := by
  have e : fenceJsonNl ++ X
      = backtick :: ([backtick, backtick, 'j', 's', 'o', 'n', '\n'] ++ X) := rfl
  have hc : leadsWith fenceJsonNl
      (backtick :: ([backtick, backtick, 'j', 's', 'o', 'n', '\n'] ++ X)) = true := by
    rw [← e]; exact leadsWith_self_append _ _
  rw [e]
  simp only [stripFenceAux, hc, if_true]
  rfl

/-- The regex replace on a fenced document ````json\n doc \n``` ````
yields the document followed by one newline, provided the document itself
contains no fence. -/
lemma stripFence_wrap (d : List Char) (h : containsSeq fence d = false) :
    stripFence (fenceJsonNl ++ (d ++ '\n' :: fence)) = d ++ ['\n'] := by
  unfold stripFence
  have hlen : (fenceJsonNl ++ (d ++ '\n' :: fence)).length = (d.length + 11) + 1 := by
    simp [fenceJsonNl, fenceJson, fence]
  rw [hlen, stripFenceAux_fenceJsonNl, stripFenceAux_tail d _ h (by omega)]

/-- Trimming ignores a trailing newline. -/
lemma trimL_append_nl (d : List Char) : trimL (d ++ ['\n']) = trimL d := by
  unfold trimL
  rw [List.reverse_append]
  simp [List.dropWhile_cons, isWsChar]

/-- On a fence-free input the cleaning step is just the trim. -/
lemma cleanText_fence_free (doc : String)
    (h : containsSeq fence doc.data = false) : cleanText doc = trimL doc.data := by
  unfold cleanText
  rw [stripFence_id doc.data h]

/-- A document wrapped in ```json fences, the way a model might wrap its
reply. -/
def wrapJson (doc : String) : String := "```json\n" ++ doc ++ "\n```"

/-- Cleaning a wrapped fence-free document gives the same text as cleaning
the bare document. -/
lemma cleanText_wrap (doc : String)
    (h : containsSeq fence doc.data = false) :
    cleanText (wrapJson doc) = trimL doc.data := by
  unfold cleanText wrapJson
  rw [String.data_append, String.data_append,
    show ("```json\n" : String).data = fenceJsonNl from by decide,
    show ("\n```" : String).data = '\n' :: fence from by decide,
    List.append_assoc, stripFence_wrap doc.data h, trimL_append_nl]

/- Claims C3 and C4: the response decoder. -/

/-- C3 (amended): for every document whose trimmed text JSON-parses to j and
whose parsed object matches the VideoAnalysis schema (decodeVideoAnalysis
succeeds), and which contains no ``` fence of its own, safeJsonParse returns
exactly j both on the bare document and on the ```json-wrapped document, and
the VideoAnalysis read off the result has every field verbatim from the
document (it is the schema view of the document's own JSON value j). -/
theorem decode_roundtrip_fence_free (doc : String) (j : Json) (va : VideoAnalysis)
    (hfree : containsSeq fence doc.data = false)
    (hparse : parseJsonL (trimL doc.data) = some j)
    (hschema : decodeVideoAnalysis j = some va) :
    safeJsonParse doc = Except.ok j ∧
    safeJsonParse (wrapJson doc) = Except.ok j ∧
    analysisOf doc = some va ∧
    analysisOf (wrapJson doc) = some va := by
  have h1 : cleanText doc = trimL doc.data := cleanText_fence_free doc hfree
  have h2 : cleanText (wrapJson doc) = trimL doc.data := cleanText_wrap doc hfree
  have e1 : safeJsonParse doc = Except.ok j := by
    unfold safeJsonParse safeJsonParseFull
    rw [h1, hparse]
  have e2 : safeJsonParse (wrapJson doc) = Except.ok j := by
    unfold safeJsonParse safeJsonParseFull
    rw [h2, hparse]
  refine ⟨e1, e2, ?_, ?_⟩
  · unfold analysisOf
    rw [e1]
    exact hschema
  · unfold analysisOf
    rw [e2]
    exact hschema

/-- A schema-conforming document whose videoTitle field contains a ```
fence. -/
def cxDoc : String :=
  "\x7b\"videoTitle\":\"a```b\",\"summary\":\"s\",\"category\":\"c\",\"suggestedClips\":[]\x7d"

set_option maxRecDepth 8000 in
/-- C3 counterexample: cxDoc is well-formed JSON matching the schema (its
own JSON value carries videoTitle "a```b"), yet the decoder returns an
analysis whose videoTitle is "ab" — the fence characters inside the string
field were stripped, so the field is not preserved verbatim. -/
theorem decode_not_verbatim_with_fences_cx :
    (parseJsonL (trimL cxDoc.data)).bind decodeVideoAnalysis =
      some { videoTitle := "a```b", summary := "s", category := "c", suggestedClips := [] } ∧
    analysisOf cxDoc =
      some { videoTitle := "ab", summary := "s", category := "c", suggestedClips := [] } ∧
    ("a```b" : String) ≠ "ab" := by
  refine ⟨by rfl, by rfl, by decide⟩

/-- A fence-free schema-conforming document used as concrete input. -/
def wfDoc : String :=
  "\x7b\"videoTitle\":\"T\",\"summary\":\"S\",\"category\":\"C\",\"suggestedClips\":[\x7b\"title\":\"c1\",\"startTime\":\"00:01\",\"endTime\":\"00:10\",\"description\":\"d\",\"viralScore\":9,\"hashtags\":[\"tag\"]\x7d]\x7d"

/-- The JSON value wfDoc denotes. -/
def wfJson : Json :=
  Json.obj [("videoTitle", Json.str "T"), ("summary", Json.str "S"),
    ("category", Json.str "C"),
    ("suggestedClips", Json.arr [Json.obj [("title", Json.str "c1"),
      ("startTime", Json.str "00:01"), ("endTime", Json.str "00:10"),
      ("description", Json.str "d"), ("viralScore", Json.num "9"),
      ("hashtags", Json.arr [Json.str "tag"])]])]

/-- The one clip wfDoc describes. -/
def wfClip : SuggestedClip :=
  { title := "c1", startTime := "00:01", endTime := "00:10",
    description := "d", viralScore := "9", hashtags := ["tag"] }

/-- The VideoAnalysis wfDoc describes. -/
def wfVa : VideoAnalysis :=
  { videoTitle := "T", summary := "S", category := "C", suggestedClips := [wfClip] }

set_option maxRecDepth 8000 in
/-- Witness for C3: the round-trip theorem applied to the concrete document
wfDoc. -/
theorem decode_roundtrip_fence_free_witness :
    safeJsonParse wfDoc = Except.ok wfJson ∧
    safeJsonParse (wrapJson wfDoc) = Except.ok wfJson ∧
    analysisOf wfDoc = some wfVa ∧
    analysisOf (wrapJson wfDoc) = some wfVa :=
  decode_roundtrip_fence_free wfDoc wfJson wfVa (by decide) (by rfl) (by rfl)

/-- C4 (amended): for every input that is not valid JSON once the fence
markers are stripped and the text trimmed, safeJsonParse throws the decode
error with the fixed message "Failed to parse AI response." — it never
returns a partial or empty result — and writes the original raw text to the
console diagnostic log; the raised error itself does not carry the input. -/
theorem decode_failure_fixed_error_and_log (text : String)
    (h : parseJsonL (cleanText text) = none) :
    safeJsonParseFull text =
      (Except.error "Failed to parse AI response.",
       ["JSON Parse Error. Raw text:", text]) := by
  unfold safeJsonParseFull
  rw [h]

/-- C4 counterexample: on a non-JSON input the raised error is the fixed
message, and the original raw text does not occur in it — the error does not
carry the input (the input is only logged). -/
theorem decode_error_lacks_raw_text_cx :
    safeJsonParse "this is not JSON" = Except.error "Failed to parse AI response." ∧
    containsSeq ("this is not JSON").data ("Failed to parse AI response.").data = false := by
  refine ⟨by rfl, by decide⟩

/-- Witness for C4: the fixed-error theorem applied to a concrete non-JSON
input. -/
theorem decode_failure_fixed_error_and_log_witness :
    safeJsonParseFull "not json" =
      (Except.error "Failed to parse AI response.",
       ["JSON Parse Error. Raw text:", "not json"]) :=
  decode_failure_fixed_error_and_log "not json" (by rfl)

/- View state machine, from src/App.tsx. The repository's App.tsx holds
three concatenated revisions of the App component; where their handlers
differ, both behaviours are embedded (the suffix 2 marks the revisions at
lines 150-302 and 303-1080, which agree with each other). The awaited
analysis call is modelled by passing its outcome — the resolved
VideoAnalysis, or the thrown error's message — into the handler. -/

/-- handleFileSelect (src/App.tsx lines 18-32): store the file source, enter
ANALYZING with a cleared error; then READY holding the result, or ERROR with
err.message when truthy and a fixed fallback otherwise (an empty message is
falsy for the || in the source). -/
def handleFileSelect (st : AppSt) (file : FileHandle)
    (outcome : Except String VideoAnalysis) : AppSt :=
  let st1 := { st with videoSource := some (VideoSource.file file),
                       appState := AppState.ANALYZING, errorMsg := "" }
  match outcome with
  | Except.ok result =>
    { st1 with analysis := some result, appState := AppState.READY }
  | Except.error m =>
    { st1 with
      errorMsg := if m = "" then "Failed to analyze video. Please try again." else m,
      appState := AppState.ERROR }

/-- handleFileSelect of the later revisions (src/App.tsx lines 173-187 and
936-950): same transitions, fixed user-facing failure message. -/
def handleFileSelect2 (st : AppSt) (file : FileHandle)
    (outcome : Except String VideoAnalysis) : AppSt :=
  let st1 := { st with videoSource := some (VideoSource.file file),
                       appState := AppState.ANALYZING, errorMsg := "" }
  match outcome with
  | Except.ok result =>
    { st1 with analysis := some result, appState := AppState.READY }
  | Except.error _ =>
    { st1 with
      appState := AppState.ERROR,
      errorMsg := "Failed to analyze video. Ensure the file is not too large (>20MB) and your API key is valid." }

/-- Whether c is in the regex word class (letters, digits, underscore). -/
def isWordChar (c : Char) : Bool :=
  c.isAlpha || c.isDigit || c == '_'

/-- The alternative of the extraction regex group that matches at the head
of cs, with the length it consumes. The dot of youtu.be is the regex
any-character; the alternatives' first characters are pairwise distinct, so
at most one alternative fits at a position. -/
def altMatch : List Char → Option Nat
  | 'y' :: 'o' :: 'u' :: 't' :: 'u' :: _ :: 'b' :: 'e' :: '/' :: _ => some 9
  | 'v' :: '/' :: _ => some 2
  | 'u' :: '/' :: w :: '/' :: _ => if isWordChar w then some 4 else none
  | 'e' :: 'm' :: 'b' :: 'e' :: 'd' :: '/' :: _ => some 6
  | 'w' :: 'a' :: 't' :: 'c' :: 'h' :: '?' :: 'v' :: '=' :: _ => some 8
  | '&' :: 'v' :: '=' :: _ => some 3
  | _ => none

/-- Backtracking of the greedy leading .* of the extraction regex: the group
matches at the greatest position where an alternative matches, so positions
are tried from the end of the input down to 0. Returns the input after the
matched alternative. -/
def scanBack (cs : List Char) : Nat → Option (List Char)
  | 0 => (altMatch cs).map fun k => cs.drop k
  | p + 1 =>
    match altMatch (cs.drop (p + 1)) with
    | some k => some (cs.drop (p + 1 + k))
    | none => scanBack cs p

/-- extractYoutubeId (src/App.tsx lines 167-171 and 930-934, inlined at
lines 36-38): match the URL against the extraction regex; group 2 is the
greedy run of characters other than hash, ampersand and question mark after
the matched alternative, and is kept only when it has exactly 11 characters.
The model assumes a single-line URL (the regex dot stops at line breaks). -/
def extractYoutubeId (url : String) : Option String :=
  match scanBack url.data url.data.length with
  | none => none
  | some rest =>
    let idChars := rest.takeWhile fun c => !(c == '#' || c == '&' || c == '?')
    if idChars.length = 11 then some (String.mk idChars) else none

/-- handleYoutubeSubmit (src/App.tsx lines 34-58): on extraction failure,
set the inline warning "Invalid YouTube URL" and return with the state
machine untouched; otherwise store the YouTube source, enter ANALYZING with
a cleared error, then READY or ERROR as for files. The second component is
the window alert this revision never raises. -/
def handleYoutubeSubmit (st : AppSt) (url : String)
    (outcome : Except String VideoAnalysis) : AppSt × Option String :=
  match extractYoutubeId url with
  | none => ({ st with errorMsg := "Invalid YouTube URL" }, none)
  | some id =>
    let st1 := { st with videoSource := some (VideoSource.youtube url id),
                         appState := AppState.ANALYZING, errorMsg := "" }
    match outcome with
    | Except.ok result =>
      ({ st1 with analysis := some result, appState := AppState.READY }, none)
    | Except.error m =>
      ({ st1 with
         errorMsg := if m = "" then "Failed to analyze YouTube video. Gemini might not be able to access this specific video's transcripts." else m,
         appState := AppState.ERROR }, none)

/-- handleYoutubeSubmit of the later revisions (src/App.tsx lines 189-209
and 952-972): on extraction failure, raise the alert "Invalid YouTube URL"
and leave the component state untouched; the failure message is fixed. -/
def handleYoutubeSubmit2 (st : AppSt) (url : String)
    (outcome : Except String VideoAnalysis) : AppSt × Option String :=
  match extractYoutubeId url with
  | none => (st, some "Invalid YouTube URL")
  | some id =>
    let st1 := { st with videoSource := some (VideoSource.youtube url id),
                         appState := AppState.ANALYZING, errorMsg := "" }
    match outcome with
    | Except.ok result =>
      ({ st1 with analysis := some result, appState := AppState.READY }, none)
    | Except.error _ =>
      ({ st1 with
         appState := AppState.ERROR,
         errorMsg := "Failed to analyze YouTube video. The AI might not have found sufficient data via search." }, none)

/-- handleReset (src/App.tsx lines 66-71): clear the source, the analysis
and the error text and return to IDLE. -/
def handleReset (_ : AppSt) : AppSt := initSt

/-- handleReset of the later revisions (src/App.tsx lines 219-223 and
982-986): clear the source and the analysis and return to IDLE; the error
text is not touched. -/
def handleReset2 (st : AppSt) : AppSt :=
  { st with videoSource := none, analysis := none, appState := AppState.IDLE }

/-- User actions that change the App component's state, with the awaited
outcome where the handler awaits the service. Seeking and chatting never
touch these state variables and are modelled separately. -/
inductive AppAction where
  | fileSelect (f : FileHandle) (o : Except String VideoAnalysis)
  | fileSelect2 (f : FileHandle) (o : Except String VideoAnalysis)
  | youtubeSubmit (url : String) (o : Except String VideoAnalysis)
  | youtubeSubmit2 (url : String) (o : Except String VideoAnalysis)
  | reset
  | reset2

/-- The state after one handler runs to completion. -/
def step (st : AppSt) : AppAction → AppSt
  | AppAction.fileSelect f o => handleFileSelect st f o
  | AppAction.fileSelect2 f o => handleFileSelect2 st f o
  | AppAction.youtubeSubmit url o => (handleYoutubeSubmit st url o).1
  | AppAction.youtubeSubmit2 url o => (handleYoutubeSubmit2 st url o).1
  | AppAction.reset => handleReset st
  | AppAction.reset2 => handleReset2 st

/-- States the App component can reach from its initial state. -/
inductive Reachable : AppSt → Prop
  | init : Reachable initSt
  | step {st : AppSt} (h : Reachable st) (a : AppAction) : Reachable (step st a)

/-- In every reachable IDLE state the analysis is null: IDLE is only entered
initially or through a reset, and both resets null the analysis. -/
lemma reachable_idle_no_analysis :
    ∀ st : AppSt, Reachable st → st.appState = AppState.IDLE → st.analysis = none := by
  intro st h
  induction h with
  | init => intro _; rfl
  | @step st h a ih =>
    cases a with
    | fileSelect f o =>
      cases o with
      | ok va => intro hc; simp [step, handleFileSelect] at hc
      | error m => intro hc; simp [step, handleFileSelect] at hc
    | fileSelect2 f o =>
      cases o with
      | ok va => intro hc; simp [step, handleFileSelect2] at hc
      | error m => intro hc; simp [step, handleFileSelect2] at hc
    | youtubeSubmit url o =>
      cases hx : extractYoutubeId url with
      | none =>
        intro hc
        simp only [step, handleYoutubeSubmit, hx] at hc ⊢
        exact ih hc
      | some id =>
        cases o with
        | ok va => intro hc; simp [step, handleYoutubeSubmit, hx] at hc
        | error m => intro hc; simp [step, handleYoutubeSubmit, hx] at hc
    | youtubeSubmit2 url o =>
      cases hx : extractYoutubeId url with
      | none =>
        intro hc
        simp only [step, handleYoutubeSubmit2, hx] at hc ⊢
        exact ih hc
      | some id =>
        cases o with
        | ok va => intro hc; simp [step, handleYoutubeSubmit2, hx] at hc
        | error m => intro hc; simp [step, handleYoutubeSubmit2, hx] at hc
    | reset => intro _; rfl
    | reset2 => intro _; rfl

/- Claims C1, C2 and C6: view state machine transitions. -/

/-- C1: every analysis run started from a reachable IDLE state — a file
selection, or a URL submission whose id extraction succeeds, through either
revision's handler — ends in READY holding the returned analysis with an
empty error text when the call succeeds, and in ERROR with a non-empty
user-facing message and no retained analysis when the call fails. -/
theorem analysis_run_from_idle_ready_or_error (st : AppSt) (hr : Reachable st)
    (hidle : st.appState = AppState.IDLE) (f : FileHandle) (va : VideoAnalysis)
    (m url id : String) :
    ((step st (AppAction.fileSelect f (Except.ok va))).appState = AppState.READY ∧
      (step st (AppAction.fileSelect f (Except.ok va))).analysis = some va ∧
      (step st (AppAction.fileSelect f (Except.ok va))).errorMsg = "") ∧
    ((step st (AppAction.fileSelect f (Except.error m))).appState = AppState.ERROR ∧
      (step st (AppAction.fileSelect f (Except.error m))).errorMsg ≠ "" ∧
      (step st (AppAction.fileSelect f (Except.error m))).analysis = none) ∧
    ((step st (AppAction.fileSelect2 f (Except.ok va))).appState = AppState.READY ∧
      (step st (AppAction.fileSelect2 f (Except.ok va))).analysis = some va ∧
      (step st (AppAction.fileSelect2 f (Except.ok va))).errorMsg = "") ∧
    ((step st (AppAction.fileSelect2 f (Except.error m))).appState = AppState.ERROR ∧
      (step st (AppAction.fileSelect2 f (Except.error m))).errorMsg ≠ "" ∧
      (step st (AppAction.fileSelect2 f (Except.error m))).analysis = none) ∧
    (extractYoutubeId url = some id →
      ((step st (AppAction.youtubeSubmit url (Except.ok va))).appState = AppState.READY ∧
        (step st (AppAction.youtubeSubmit url (Except.ok va))).analysis = some va ∧
        (step st (AppAction.youtubeSubmit url (Except.ok va))).errorMsg = "") ∧
      ((step st (AppAction.youtubeSubmit url (Except.error m))).appState = AppState.ERROR ∧
        (step st (AppAction.youtubeSubmit url (Except.error m))).errorMsg ≠ "" ∧
        (step st (AppAction.youtubeSubmit url (Except.error m))).analysis = none) ∧
      ((step st (AppAction.youtubeSubmit2 url (Except.ok va))).appState = AppState.READY ∧
        (step st (AppAction.youtubeSubmit2 url (Except.ok va))).analysis = some va ∧
        (step st (AppAction.youtubeSubmit2 url (Except.ok va))).errorMsg = "") ∧
      ((step st (AppAction.youtubeSubmit2 url (Except.error m))).appState = AppState.ERROR ∧
        (step st (AppAction.youtubeSubmit2 url (Except.error m))).errorMsg ≠ "" ∧
        (step st (AppAction.youtubeSubmit2 url (Except.error m))).analysis = none)) := by
  have hna : st.analysis = none := reachable_idle_no_analysis st hr hidle
  have hmsg : (if m = "" then "Failed to analyze video. Please try again." else m) ≠ "" := by
    by_cases hm : m = "" <;> simp [hm]
  have hmsg2 :
      ("Failed to analyze video. Ensure the file is not too large (>20MB) and your API key is valid." : String) ≠ "" := by
    decide
  have hmsgY : (if m = "" then "Failed to analyze YouTube video. Gemini might not be able to access this specific video's transcripts." else m) ≠ "" := by
    by_cases hm : m = "" <;> simp [hm]
  have hmsg2Y :
      ("Failed to analyze YouTube video. The AI might not have found sufficient data via search." : String) ≠ "" := by
    decide
  refine ⟨⟨rfl, rfl, rfl⟩, ⟨rfl, hmsg, hna⟩, ⟨rfl, rfl, rfl⟩,
    ⟨rfl, hmsg2, hna⟩, ?_⟩
  intro hx
  refine ⟨⟨?_, ?_, ?_⟩, ⟨?_, ?_, ?_⟩, ⟨?_, ?_, ?_⟩, ⟨?_, ?_, ?_⟩⟩
  · show (handleYoutubeSubmit st url (Except.ok va)).1.appState = AppState.READY
    unfold handleYoutubeSubmit
    rw [hx]
  · show (handleYoutubeSubmit st url (Except.ok va)).1.analysis = some va
    unfold handleYoutubeSubmit
    rw [hx]
  · show (handleYoutubeSubmit st url (Except.ok va)).1.errorMsg = ""
    unfold handleYoutubeSubmit
    rw [hx]
  · show (handleYoutubeSubmit st url (Except.error m)).1.appState = AppState.ERROR
    unfold handleYoutubeSubmit
    rw [hx]
  · show (handleYoutubeSubmit st url (Except.error m)).1.errorMsg ≠ ""
    unfold handleYoutubeSubmit
    rw [hx]
    exact hmsgY
  · show (handleYoutubeSubmit st url (Except.error m)).1.analysis = none
    unfold handleYoutubeSubmit
    rw [hx]
    exact hna
  · show (handleYoutubeSubmit2 st url (Except.ok va)).1.appState = AppState.READY
    unfold handleYoutubeSubmit2
    rw [hx]
  · show (handleYoutubeSubmit2 st url (Except.ok va)).1.analysis = some va
    unfold handleYoutubeSubmit2
    rw [hx]
  · show (handleYoutubeSubmit2 st url (Except.ok va)).1.errorMsg = ""
    unfold handleYoutubeSubmit2
    rw [hx]
  · show (handleYoutubeSubmit2 st url (Except.error m)).1.appState = AppState.ERROR
    unfold handleYoutubeSubmit2
    rw [hx]
  · show (handleYoutubeSubmit2 st url (Except.error m)).1.errorMsg ≠ ""
    unfold handleYoutubeSubmit2
    rw [hx]
    exact hmsg2Y
  · show (handleYoutubeSubmit2 st url (Except.error m)).1.analysis = none
    unfold handleYoutubeSubmit2
    rw [hx]
    exact hna

/-- Witness for C1: the run theorem at the initial state, a concrete file, a
concrete analysis, the empty error message and a concrete YouTube URL. -/
theorem analysis_run_from_idle_ready_or_error_witness :
    (step initSt (AppAction.fileSelect ⟨"clip.mp4"⟩ (Except.ok wfVa))).appState
      = AppState.READY ∧
    (step initSt (AppAction.fileSelect ⟨"clip.mp4"⟩ (Except.error ""))).appState
      = AppState.ERROR ∧
    (step initSt (AppAction.fileSelect ⟨"clip.mp4"⟩ (Except.error ""))).errorMsg ≠ "" ∧
    (step initSt (AppAction.fileSelect ⟨"clip.mp4"⟩ (Except.error ""))).analysis = none ∧
    (step initSt (AppAction.youtubeSubmit "https://youtu.be/dQw4w9WgXcQ"
      (Except.ok wfVa))).appState = AppState.READY := by
  have h := analysis_run_from_idle_ready_or_error initSt Reachable.init rfl
    ⟨"clip.mp4"⟩ wfVa "" "https://youtu.be/dQw4w9WgXcQ" "dQw4w9WgXcQ"
  exact ⟨h.1.1, h.2.1.1, h.2.1.2.1, h.2.1.2.2, (h.2.2.2.2 (by rfl)).1.1⟩

/-- An ERROR state as a failed analysis leaves it. -/
def cxErrSt : AppSt :=
  { videoSource := none, appState := AppState.ERROR, analysis := none,
    errorMsg := "Failed to analyze video. Please try again." }

/-- C2 counterexample: resetting the concrete ERROR state through the later
revisions' handleReset returns to IDLE with the source and analysis cleared,
but the error text is retained, not cleared. -/
theorem reset_retains_error_text_cx :
    cxErrSt.appState = AppState.ERROR ∧
    (handleReset2 cxErrSt).appState = AppState.IDLE ∧
    (handleReset2 cxErrSt).videoSource = none ∧
    (handleReset2 cxErrSt).analysis = none ∧
    (handleReset2 cxErrSt).errorMsg = "Failed to analyze video. Please try again." ∧
    (handleReset2 cxErrSt).errorMsg ≠ "" :=
  ⟨rfl, rfl, rfl, rfl, rfl, by decide⟩

/-- C2 (amended): reset always yields IDLE with the VideoSource and the
VideoAnalysis cleared; the first revision's reset (App.tsx lines 66-71) also
clears the error text, while the later revisions' reset (lines 219-223 and
982-986) leaves the error text unchanged. -/
theorem reset_clears_state_amended (s : AppSt) :
    handleReset s = initSt ∧
    (handleReset2 s).appState = AppState.IDLE ∧
    (handleReset2 s).videoSource = none ∧
    (handleReset2 s).analysis = none ∧
    (handleReset2 s).errorMsg = s.errorMsg :=
  ⟨rfl, rfl, rfl, rfl, rfl⟩

/-- C6: the extraction maps the two standard URL shapes to the 11-character
id dQw4w9WgXcQ and fails on a non-video URL; whenever extraction fails, both
revisions' submit handlers leave the state machine untouched (in particular
an IDLE state stays IDLE, never ERROR) and warn the user — the first
revision inline through errorMsg, the later revisions through an alert. -/
theorem youtube_id_extraction_behavior :
    extractYoutubeId "https://www.youtube.com/watch?v=dQw4w9WgXcQ" = some "dQw4w9WgXcQ" ∧
    extractYoutubeId "https://youtu.be/dQw4w9WgXcQ" = some "dQw4w9WgXcQ" ∧
    extractYoutubeId "https://example.com/not-a-video" = none ∧
    (∀ (st : AppSt) (url : String) (o : Except String VideoAnalysis),
      extractYoutubeId url = none →
        handleYoutubeSubmit2 st url o = (st, some "Invalid YouTube URL") ∧
        (handleYoutubeSubmit st url o).1.appState = st.appState ∧
        (handleYoutubeSubmit st url o).1.videoSource = st.videoSource ∧
        (handleYoutubeSubmit st url o).1.analysis = st.analysis ∧
        (handleYoutubeSubmit st url o).1.errorMsg = "Invalid YouTube URL" ∧
        (handleYoutubeSubmit st url o).2 = none) := by
  refine ⟨by rfl, by rfl, by rfl, ?_⟩
  intro st url o hx
  refine ⟨?_, ?_, ?_, ?_, ?_, ?_⟩
  · unfold handleYoutubeSubmit2
    rw [hx]
  · show (handleYoutubeSubmit st url o).1.appState = st.appState
    unfold handleYoutubeSubmit
    rw [hx]
  · show (handleYoutubeSubmit st url o).1.videoSource = st.videoSource
    unfold handleYoutubeSubmit
    rw [hx]
  · show (handleYoutubeSubmit st url o).1.analysis = st.analysis
    unfold handleYoutubeSubmit
    rw [hx]
  · show (handleYoutubeSubmit st url o).1.errorMsg = "Invalid YouTube URL"
    unfold handleYoutubeSubmit
    rw [hx]
  · show (handleYoutubeSubmit st url o).2 = none
    unfold handleYoutubeSubmit
    rw [hx]

/-- Witness for C6: the refusal behaviour at the initial state and the
concrete non-video URL. -/
theorem youtube_id_extraction_behavior_witness :
    handleYoutubeSubmit2 initSt "https://example.com/not-a-video" (Except.error "x")
      = (initSt, some "Invalid YouTube URL") ∧
    (handleYoutubeSubmit initSt "https://example.com/not-a-video"
      (Except.error "x")).1.appState = AppState.IDLE := by
  have h := youtube_id_extraction_behavior.2.2.2 initSt
    "https://example.com/not-a-video" (Except.error "x") (by rfl)
  exact ⟨h.1, h.2.1⟩

/- Seek conversion, from handleSeek (src/App.tsx lines 60-64, 211-217 and
974-980): timeStr.split(':').map(Number), then minutes * 60 + seconds. -/

/-- JS String.split on the colon character: the groups between colons, empty
groups kept. -/
def splitOnColon : List Char → List (List Char)
  | [] => [[]]
  | c :: rest =>
    if c == ':' then [] :: splitOnColon rest
    else
      match splitOnColon rest with
      | [] => [[c]]
      | g :: gs => (c :: g) :: gs

/-- Decimal value of a digit character. -/
def digitVal (c : Char) : Nat := c.toNat - '0'.toNat

/-- Decimal value of a digit string. -/
def toNatDigits (cs : List Char) : Nat :=
  cs.foldl (fun a c => a * 10 + digitVal c) 0

/-- The JS Number conversion as the seek handler meets it: the empty string
is 0, a run of decimal digits is its value, and a group with other
characters is NaN, modelled as none. -/
def jsNumber (cs : List Char) : Option Nat :=
  if cs.isEmpty then some 0
  else if cs.all Char.isDigit then some (toNatDigits cs) else none

/-- handleSeek's conversion of a timestamp string to seconds: split on the
colon, convert the first two groups with Number, and take
minutes * 60 + seconds. none models a NaN outcome, also when there is no
second group and the destructuring yields undefined. -/
def handleSeekSeconds (timeStr : String) : Option Nat :=
  match (splitOnColon timeStr.data).map jsNumber with
  | a :: b :: _ =>
    match a, b with
    | some x, some y => some (x * 60 + y)
    | _, _ => none
  | _ => none

/-- Whether t has the exact MM:SS shape: two digits, a colon, two digits. -/
def isValidMMSS (t : String) : Bool :=
  match t.data with
  | [a, b, c, d, e] => a.isDigit && b.isDigit && (c == ':') && d.isDigit && e.isDigit
  | _ => false

/-- The minutes an MM:SS string denotes. -/
def mmssMinutes (t : String) : Nat :=
  match t.data with
  | a :: b :: _ => 10 * digitVal a + digitVal b
  | _ => 0

/-- The seconds field an MM:SS string denotes. -/
def mmssSeconds (t : String) : Nat :=
  match t.data with
  | _ :: _ :: _ :: d :: e :: _ => 10 * digitVal d + digitVal e
  | _ => 0

/-- A digit is not the colon. -/
lemma digit_ne_colon {c : Char} (h : c.isDigit = true) : (c == ':') = false := by
  cases hb : (c == ':') with
  | false => rfl
  | true =>
    have hc : c = ':' := eq_of_beq hb
    subst hc
    exact absurd h (by decide)

/-- C5: for every valid MM:SS string the conversion returns
minutes * 60 + seconds; in particular 01:30 becomes 90 and 00:05 becomes
5. -/
theorem seek_conversion_mmss :
    (∀ t : String, isValidMMSS t = true →
      handleSeekSeconds t = some (mmssMinutes t * 60 + mmssSeconds t)) ∧
    handleSeekSeconds "01:30" = some 90 ∧
    handleSeekSeconds "00:05" = some 5 := by
  refine ⟨?_, by rfl, by rfl⟩
  intro t hv
  obtain ⟨cs⟩ := t
  cases cs with
  | nil => simp [isValidMMSS] at hv
  | cons a cs =>
  cases cs with
  | nil => simp [isValidMMSS] at hv
  | cons b cs =>
  cases cs with
  | nil => simp [isValidMMSS] at hv
  | cons c cs =>
  cases cs with
  | nil => simp [isValidMMSS] at hv
  | cons d cs =>
  cases cs with
  | nil => simp [isValidMMSS] at hv
  | cons e cs =>
  cases cs with
  | cons f cs => simp [isValidMMSS] at hv
  | nil =>
  simp only [isValidMMSS, Bool.and_eq_true, beq_iff_eq] at hv
  obtain ⟨⟨⟨⟨ha, hb⟩, hc⟩, hd⟩, he⟩ := hv
  subst hc
  have hsplit : splitOnColon [a, b, ':', d, e] = [[a, b], [d, e]] := by
    simp [splitOnColon, digit_ne_colon ha, digit_ne_colon hb,
      digit_ne_colon hd, digit_ne_colon he]
  show handleSeekSeconds (String.mk [a, b, ':', d, e])
    = some (mmssMinutes (String.mk [a, b, ':', d, e]) * 60
        + mmssSeconds (String.mk [a, b, ':', d, e]))
  simp only [handleSeekSeconds, mmssMinutes, mmssSeconds, hsplit, List.map,
    jsNumber, List.isEmpty, List.all, ha, hb, hd, he, Bool.and_true,
    Bool.and_self, if_true, if_false, toNatDigits, List.foldl]
  simp
  omega

/-- Witness for C5: the conversion theorem at the concrete strings of the
claim. -/
theorem seek_conversion_mmss_witness :
    handleSeekSeconds "01:30"
      = some (mmssMinutes "01:30" * 60 + mmssSeconds "01:30") ∧
    handleSeekSeconds "01:30" = some 90 ∧
    handleSeekSeconds "00:05" = some 5 :=
  ⟨seek_conversion_mmss.1 "01:30" (by decide),
   seek_conversion_mmss.2.1, seek_conversion_mmss.2.2⟩

/- Conversation state, from src/components/ChatBot.tsx (the same component
is duplicated inline in src/App.tsx lines 824-909). The awaited
chatWithVideo call is modelled by its outcome: resolution with the gateway
response's optional text, or a thrown error. -/

/-- Turn role (src/types.ts, ChatMessage). -/
inductive Role where
  | user
  | model
deriving DecidableEq, Repr

/-- One turn of the conversation. -/
structure ChatMessage where
  role : Role
  text : String
deriving DecidableEq, Repr

/-- The ChatBot component's state: the input field, the ordered turn log and
the in-flight flag. -/
structure ChatState where
  input : String
  messages : List ChatMessage
  isLoading : Bool
deriving DecidableEq, Repr

/-- The fixed greeting turn the chat opens with. -/
def greetingMsg : ChatMessage :=
  { role := Role.model,
    text := "I have analyzed the video. Ask me anything about specific details, timestamps, or content ideas!" }

/-- Initial chat state: empty input, the fixed greeting turn, not
loading. -/
def initialChatState : ChatState :=
  { input := "", messages := [greetingMsg], isLoading := false }

/-- Outcome of the awaited chatWithVideo call: the generateContent response
resolved with its optional text, or the call threw. -/
inductive ChatOutcome where
  | success (text : Option String)
  | failure

/-- Tail of chatWithVideo (src/services/geminiService.ts lines 126-149):
response.text || a fixed fallback — an absent or empty text yields the
fallback string, never an error. -/
def chatWithVideoText (responseText : Option String) : String :=
  match responseText with
  | some t => if t = "" then "I couldn't generate a response." else t
  | none => "I couldn't generate a response."

/-- The guard at the head of handleSend (src/components/ChatBot.tsx line
30): blank input (the input trims to nothing), a request already in flight,
or no source. The trim is modelled by trimL on the character list. -/
def sendGuard (source : Option VideoSource) (cs : ChatState) : Bool :=
  (trimL cs.input.data).isEmpty || cs.isLoading || source.isNone

/-- The synchronous phase of handleSend (lines 32-35): clear the input,
append the user turn, raise the in-flight flag. -/
def handleSendStart (source : Option VideoSource) (cs : ChatState) : ChatState :=
  if sendGuard source cs then cs
  else { input := "",
         messages := cs.messages ++ [{ role := Role.user, text := cs.input }],
         isLoading := true }

/-- The model turn the completion appends: the chatWithVideo result on
resolution, the fixed apology on a thrown error (lines 43-47). -/
def chatReply : ChatOutcome → String
  | ChatOutcome.success t => chatWithVideoText t
  | ChatOutcome.failure => "Sorry, I encountered an error responding to that."

/-- The completion phase of handleSend (lines 43-50): append the model turn
and clear the in-flight flag. -/
def handleSendFinish (cs : ChatState) (o : ChatOutcome) : ChatState :=
  { cs with
    messages := cs.messages ++ [{ role := Role.model, text := chatReply o }],
    isLoading := false }

/-- handleSend run to completion: a no-op when the guard fires, otherwise
the synchronous phase followed by the completion phase. -/
def handleSend (source : Option VideoSource) (cs : ChatState)
    (o : ChatOutcome) : ChatState :=
  if sendGuard source cs then cs
  else handleSendFinish (handleSendStart source cs) o

/-- handleSend next to the App state it cannot touch: ChatBot has no access
to the App component's setters, so the view state rides along unchanged. -/
def handleSendWithApp (app : AppSt) (source : Option VideoSource)
    (cs : ChatState) (o : ChatOutcome) : AppSt × ChatState :=
  (app, handleSend source cs o)

/- Claims C7, C8 and C10: the conversation state. -/

/-- C7: a send with non-blank input while no request is outstanding and a
source is present appends the user turn first, synchronously; on completion
the log has grown by exactly two — the user turn then the model turn, the
model turn being the chatWithVideo text on resolution and the fixed apology
on a thrown error — and the top-level view state is untouched. -/
theorem chat_send_appends_exactly_two (app : AppSt) (source : Option VideoSource)
    (cs : ChatState) (o : ChatOutcome)
    (hin : (trimL cs.input.data).isEmpty = false) (hload : cs.isLoading = false)
    (hsrc : source.isNone = false) :
    (handleSendStart source cs).messages
      = cs.messages ++ [{ role := Role.user, text := cs.input }] ∧
    (handleSend source cs o).messages
      = cs.messages ++ [{ role := Role.user, text := cs.input },
                        { role := Role.model, text := chatReply o }] ∧
    (handleSend source cs o).messages.length = cs.messages.length + 2 ∧
    (∀ t, chatReply (ChatOutcome.success t) = chatWithVideoText t) ∧
    chatReply ChatOutcome.failure = "Sorry, I encountered an error responding to that." ∧
    (handleSendWithApp app source cs o).1 = app := by
  have hguard : sendGuard source cs = false := by
    simp [sendGuard, hin, hload, hsrc]
  refine ⟨?_, ?_, ?_, fun t => rfl, rfl, rfl⟩
  · simp [handleSendStart, hguard]
  · simp [handleSend, handleSendStart, handleSendFinish, hguard]
  · simp [handleSend, handleSendStart, handleSendFinish, hguard]

/-- A chat state with the greeting logged and "hi" typed, nothing in
flight. -/
def chatReadySt : ChatState :=
  { input := "hi", messages := initialChatState.messages, isLoading := false }

/-- Witness for C7: the append theorem at a concrete state and a resolved
reply. -/
theorem chat_send_appends_exactly_two_witness :
    (handleSend (some (VideoSource.youtube "u" "dQw4w9WgXcQ")) chatReadySt
        (ChatOutcome.success (some "hello"))).messages
      = chatReadySt.messages ++ [{ role := Role.user, text := "hi" },
          { role := Role.model, text := "hello" }] := by
  have h := chat_send_appends_exactly_two initSt
    (some (VideoSource.youtube "u" "dQw4w9WgXcQ")) chatReadySt
    (ChatOutcome.success (some "hello")) (by decide) rfl rfl
  simpa using h.2.1

/-- A chat state with a request outstanding and "hello" typed. -/
def chatBusySt : ChatState :=
  { input := "hello", messages := initialChatState.messages, isLoading := true }

/-- C8 counterexample: at a concrete state with a request outstanding and
non-blank input, invoking handleSend appends nothing and starts nothing —
the isLoading check at the head of handleSend is an internal guard at the
conversation-state layer, contrary to the claim. -/
theorem chat_send_blocked_while_loading_cx :
    chatBusySt.isLoading = true ∧
    (trimL chatBusySt.input.data).isEmpty = false ∧
    handleSend (some (VideoSource.youtube "u" "dQw4w9WgXcQ")) chatBusySt
      (ChatOutcome.success (some "x")) = chatBusySt ∧
    handleSendStart (some (VideoSource.youtube "u" "dQw4w9WgXcQ")) chatBusySt
      = chatBusySt := by
  refine ⟨rfl, by decide, by rfl, by rfl⟩

/-- C8 (amended): while a chat request is outstanding (isLoading), invoking
sendMessage is a no-op at the conversation-state layer — the guard prevents
the append and the second request (though two sends racing before either
state update commits fall outside this sequential model). -/
theorem chat_send_noop_while_loading (source : Option VideoSource)
    (cs : ChatState) (o : ChatOutcome) (h : cs.isLoading = true) :
    handleSend source cs o = cs ∧ handleSendStart source cs = cs := by
  have hg : sendGuard source cs = true := by simp [sendGuard, h]
  constructor <;> simp [handleSend, handleSendStart, hg]

/-- Witness for C8: the no-op theorem at the concrete busy state. -/
theorem chat_send_noop_while_loading_witness :
    handleSend none chatBusySt ChatOutcome.failure = chatBusySt :=
  (chat_send_noop_while_loading none chatBusySt ChatOutcome.failure rfl).1

/-- C10: an empty or missing response text makes chatWithVideo return the
fixed fallback string rather than raise, the caller appends it as an
ordinary model turn, and the same empty text makes the analysis functions
throw "No response from Gemini". -/
theorem chat_empty_response_fallback (t : Option String)
    (h : t = none ∨ t = some "") :
    chatWithVideoText t = "I couldn't generate a response." ∧
    analyzeVideoContentResult t = Except.error "No response from Gemini" ∧
    (∀ (source : Option VideoSource) (cs : ChatState),
      sendGuard source cs = false →
      (handleSend source cs (ChatOutcome.success t)).messages
        = cs.messages ++ [{ role := Role.user, text := cs.input },
            { role := Role.model, text := "I couldn't generate a response." }]) := by
  have ht : chatWithVideoText t = "I couldn't generate a response." := by
    rcases h with h | h <;> subst h <;> rfl
  have ha : analyzeVideoContentResult t = Except.error "No response from Gemini" := by
    rcases h with h | h <;> subst h <;> rfl
  refine ⟨ht, ha, ?_⟩
  intro source cs hg
  simp [handleSend, handleSendStart, handleSendFinish, hg, chatReply, ht]

/-- Witness for C10: the fallback theorem at a missing response text and the
concrete ready chat state. -/
theorem chat_empty_response_fallback_witness :
    chatWithVideoText none = "I couldn't generate a response." ∧
    analyzeVideoContentResult none = Except.error "No response from Gemini" ∧
    (handleSend (some (VideoSource.youtube "u" "dQw4w9WgXcQ")) chatReadySt
        (ChatOutcome.success none)).messages
      = chatReadySt.messages ++ [{ role := Role.user, text := chatReadySt.input },
          { role := Role.model, text := "I couldn't generate a response." }] := by
  have h := chat_empty_response_fallback none (Or.inl rfl)
  exact ⟨h.1, h.2.1, h.2.2 (some (VideoSource.youtube "u" "dQw4w9WgXcQ"))
    chatReadySt (by decide)⟩

/- Claim C9: the seek dispatcher, from src/components/VideoPlayer.tsx. -/

/-- Observable playback effects of one seekTo call: mutating and playing the
media element for a file source, or posting a message to the embedded
player's window for a YouTube source. The source posts JSON.stringify of the
object; the message is kept structured here. -/
inductive PlayerEffect where
  | setCurrentTime (seconds : Nat)
  | htmlPlay
  | postMessage (payload : Json)

/-- seekTo (src/components/VideoPlayer.tsx lines 16-41): set currentTime and
play for a file, or post the seekTo command then the playVideo command for a
YouTube embed. -/
def seekTo (source : VideoSource) (timeInSeconds : Nat) : List PlayerEffect :=
  match source with
  | VideoSource.file _ =>
    [PlayerEffect.setCurrentTime timeInSeconds, PlayerEffect.htmlPlay]
  | VideoSource.youtube _ _ =>
    [PlayerEffect.postMessage (Json.obj [("event", Json.str "command"),
       ("func", Json.str "seekTo"),
       ("args", Json.arr [Json.num (toString timeInSeconds), Json.bool true])]),
     PlayerEffect.postMessage (Json.obj [("event", Json.str "command"),
       ("func", Json.str "playVideo"), ("args", Json.arr [])])]

/-- C9: for every second offset on a YouTube source, seekTo emits exactly
the seekTo command message followed by the playVideo command message, in
that order and nothing else. -/
theorem youtube_seek_two_message_sequence (url id : String) (s : Nat) :
    seekTo (VideoSource.youtube url id) s =
      [PlayerEffect.postMessage (Json.obj [("event", Json.str "command"),
         ("func", Json.str "seekTo"),
         ("args", Json.arr [Json.num (toString s), Json.bool true])]),
       PlayerEffect.postMessage (Json.obj [("event", Json.str "command"),
         ("func", Json.str "playVideo"), ("args", Json.arr [])])] := rfl
